import Mathlib

/-!
Shallow embedding of the White Flag protection-request lifecycle engine
found in the repository (two variant implementations inside index.js).

Variant A keeps the request collection as an object keyed by request id,
with statuses pending / approved / denied / expired / ended_early and a
per-request in-memory timer; variant B keeps an array of entries with
statuses pending / active, removes records on deny and on manual end, and
expires passively through pruneExpiredWithReport.

Timestamps are Nat milliseconds; the Discord transport is modelled as
side-effect intents returned by each operation.
-/

/-- Milliseconds in seven days (SEVEN_DAYS_MS in the source). -/
def sevenDaysMs : Nat := 7 * 24 * 60 * 60 * 1000

/-- A JavaScript value held by a loosely-typed record field such as
approvedAt: absent (undefined), a number, or some other non-numeric value
(modelled as a string, as could appear in a hand-edited JSON file). -/
inductive JVal
  | undef
  | num (n : Nat)
  | str (s : String)
deriving DecidableEq

/-- JavaScript truthiness of such a value: undefined, 0 and the empty
string are falsy, everything else is truthy. -/
def JVal.truthy : JVal → Bool
  | .undef => false
  | .num n => n != 0
  | .str s => s != ""

/-- The numeric content of the value when the typeof x check for a number
succeeds, none otherwise. -/
def JVal.toNum? : JVal → Option Nat
  | .num n => some n
  | _ => none

/-- Request statuses used by variant A. -/
inductive StatusA
  | pending
  | approved
  | denied
  | expired
  | endedEarly
deriving DecidableEq

/-- A request record of variant A (the values of the requests object). -/
structure ReqA where
  id : String
  tribeName : String
  requestedBy : String
  status : StatusA
  ign : String := ""
  map : String := ""
  serverType : String := ""
  requestedAt : Nat := 0
  approvedAt : JVal := .undef
  approvedBy : Option String := none
  deniedAt : Option Nat := none
  deniedBy : Option String := none
  endedEarlyAt : Option Nat := none
  endedEarlyBy : Option String := none
  expiredAt : Option Nat := none
deriving DecidableEq

/-- One pass over the characters, replacing each maximal run of whitespace
by a single space: the regex replace inside normalizeTribeName. The flag
records whether the previous character was part of a whitespace run. -/
def collapseWs : List Char → Bool → List Char
  | [], _ => []
  | c :: cs, prevWs =>
    if c.isWhitespace then
      if prevWs then collapseWs cs true else ' ' :: collapseWs cs true
    else c :: collapseWs cs false

/-- JS String.prototype.trim over a list of characters. -/
def jsTrim (cs : List Char) : List Char :=
  ((cs.dropWhile Char.isWhitespace).reverse.dropWhile Char.isWhitespace).reverse

/-- normalizeTribeName from variant A: trim, lowercase, collapse runs of
whitespace to single spaces. The normalized key is the character list. -/
def normalizeTribeName (name : String) : List Char :=
  collapseWs ((jsTrim name.data).map Char.toLower) false

/-- isApprovedAndActive from variant A: status approved, approvedAt of
number type, and approvedAt + SEVEN_DAYS_MS strictly in the future. -/
def isApprovedAndActive (r : ReqA) (now : Nat) : Bool :=
  r.status == .approved &&
    match r.approvedAt.toNum? with
    | some t => decide (now < t + sevenDaysMs)
    | none => false

/-- getPendingRequestForUser from variant A: first record of this
requester whose status is pending. -/
def getPendingRequestForUser (store : List ReqA) (userId : String) : Option ReqA :=
  store.find? fun r => r.requestedBy == userId && r.status == .pending

/-- getActiveApprovedForTribe from variant A: first record, other than the
excluded id when one is given, whose normalized tribe name matches and
which is approved and active. -/
def getActiveApprovedForTribe (store : List ReqA) (tribeName : String)
    (excludeId : Option String) (now : Nat) : Option ReqA :=
  store.find? fun r =>
    !(excludeId == some r.id)
      && normalizeTribeName r.tribeName == normalizeTribeName tribeName
      && isApprovedAndActive r now

/-- Lookup requests[id]; the requests object is keyed by request id. -/
def lookupA (store : List ReqA) (id : String) : Option ReqA :=
  store.find? fun r => r.id == id

/-- The assignment requests[id] = r: replace the entry carrying this id. -/
def updateA (store : List ReqA) (id : String) (r : ReqA) : List ReqA :=
  store.map fun x => if x.id == id then r else x

/-- Ids are unique in the requests object, since they are its keys. -/
def idsNodupA (store : List ReqA) : Prop :=
  (store.map fun r => r.id).Nodup

/-- Rejection reasons surfaced by variant A handlers. -/
inductive ErrA
  | notFound
  | invalidState (st : StatusA)
  | duplicateRequester
  | duplicateEntity
  | adminChannelMissing
deriving DecidableEq

/-- Side-effect intents emitted by variant A handlers, tagged by the
channel they target. -/
inductive IntentA
  | adminNewApplication (id : String)
  | adminExpired (id : String)
  | announceOpenSeason (id : String)
  | dm (userId : String)
deriving DecidableEq

/-- Result of a variant A handler: the persisted collection afterwards,
the side-effect intents attempted, and the rejection if any. -/
structure OutA where
  store : List ReqA
  intents : List IntentA
  res : Option ErrA
deriving DecidableEq

/-- The modal-submit handler of variant A, after the rules-role and field
validations: reject a requester with a pending record, reject when the
tribe has an active approved grant, otherwise persist the new pending
record and then post to the admin channel. When the admin channel is
missing the handler replies with an error but the record stays persisted. -/
def submitA (store : List ReqA) (userId tribe ign mapName serverType : String)
    (now : Nat) (newId : String) (adminChOk : Bool) : OutA :=
  if (getPendingRequestForUser store userId).isSome then
    ⟨store, [], some .duplicateRequester⟩
  else if (getActiveApprovedForTribe store tribe none now).isSome then
    ⟨store, [], some .duplicateEntity⟩
  else
    let req : ReqA :=
      { id := newId, tribeName := tribe, requestedBy := userId, status := .pending,
        ign := ign, map := mapName, serverType := serverType, requestedAt := now }
    let store2 := store ++ [req]
    if adminChOk then ⟨store2, [.adminNewApplication newId], none⟩
    else ⟨store2, [], some .adminChannelMissing⟩

/-- The approve button handler of variant A: not-found and status guards,
then the re-run uniqueness check excluding this id, then the transition to
approved with approvedAt = now, persisted before the requester DM. -/
def approveA (store : List ReqA) (id approverId : String) (now : Nat) : OutA :=
  match lookupA store id with
  | none => ⟨store, [], some .notFound⟩
  | some req =>
    if req.status != .pending then ⟨store, [], some (.invalidState req.status)⟩
    else if (getActiveApprovedForTribe store req.tribeName (some id) now).isSome then
      ⟨store, [], some .duplicateEntity⟩
    else
      let req2 := { req with status := .approved, approvedAt := .num now,
                             approvedBy := some approverId }
      ⟨updateA store id req2, [.dm req.requestedBy], none⟩

/-- The deny button handler of variant A. -/
def denyA (store : List ReqA) (id denierId : String) (now : Nat) : OutA :=
  match lookupA store id with
  | none => ⟨store, [], some .notFound⟩
  | some req =>
    if req.status != .pending then ⟨store, [], some (.invalidState req.status)⟩
    else
      let req2 := { req with status := .denied, deniedAt := some now,
                             deniedBy := some denierId }
      ⟨updateA store id req2, [.dm req.requestedBy], none⟩

/-- The end-early button handler of variant A: requires an approved
record, cancels the timer, persists ended_early, then posts the open
season announcement and DMs the requester. -/
def endEarlyA (store : List ReqA) (id actorId : String) (now : Nat) : OutA :=
  match lookupA store id with
  | none => ⟨store, [], some .notFound⟩
  | some req =>
    if req.status != .approved then ⟨store, [], some (.invalidState req.status)⟩
    else
      let req2 := { req with status := .endedEarly, endedEarlyAt := some now,
                             endedEarlyBy := some actorId }
      ⟨updateA store id req2, [.announceOpenSeason id, .dm req.requestedBy], none⟩

/-- The delay computed by scheduleExpiry: Math.max(0, approvedAt +
SEVEN_DAYS_MS - now) when approvedAt is a number. A non-numeric approvedAt
makes the subtraction NaN, which the runtime clamps to a minimal delay;
the armed timer then carries no meaningful delay, modelled as none. -/
def schedDelay (approvedAt : JVal) (now : Nat) : Option Nat :=
  match approvedAt with
  | .num t => some (t + sevenDaysMs - now)
  | _ => none

/-- scheduleExpiry from variant A, up to arming the timeout: returns the
armed timer (id and delay) unless the guard returns early because the
record is missing, not approved, or has a falsy approvedAt. -/
def scheduleExpiry (store : List ReqA) (id : String) (now : Nat) :
    Option (String × Option Nat) :=
  match lookupA store id with
  | none => none
  | some req =>
    if req.status != .approved then none
    else if !req.approvedAt.truthy then none
    else some (id, schedDelay req.approvedAt now)

/-- The timeout callback armed by scheduleExpiry: re-read the collection,
no-op when the record is gone or no longer approved, otherwise persist the
expired status and post the quiet admin-channel notice. -/
def timerFireA (store : List ReqA) (id : String) (now : Nat) :
    List ReqA × List IntentA :=
  match lookupA store id with
  | none => (store, [])
  | some r =>
    if r.status != .approved then (store, [])
    else (updateA store id { r with status := .expired, expiredAt := some now },
          [.adminExpired id])

/-- The per-record condition of expireOverdueApprovalsOnStartup: status
approved, truthy approvedAt, and an elapsed end instant. A non-numeric
approvedAt concatenates into a string whose comparison with now is false. -/
def overdueA (r : ReqA) (now : Nat) : Bool :=
  r.status == .approved && r.approvedAt.truthy &&
    match r.approvedAt.toNum? with
    | some t => decide (t + sevenDaysMs ≤ now)
    | none => false

/-- The per-record rewrite of expireOverdueApprovalsOnStartup: an overdue
record becomes expired, any other record is left alone. -/
def expireMark (now : Nat) (x : ReqA) : ReqA :=
  if overdueA x now then { x with status := .expired, expiredAt := some now } else x

/-- expireOverdueApprovalsOnStartup from variant A: mark every overdue
approved record expired and post one admin-channel notice per such record
when the admin channel resolves. -/
def expireOverdueA (store : List ReqA) (now : Nat) (adminChOk : Bool) :
    List ReqA × List IntentA :=
  (store.map (expireMark now),
   if adminChOk then
     (store.filter fun r => overdueA r now).map fun r => .adminExpired r.id
   else [])

/-- The timer-rescheduling loop of the ready handler: call scheduleExpiry
for every record that is approved and active, collecting the armed
timers. -/
def rescheduleA (store : List ReqA) (now : Nat) : List (String × Option Nat) :=
  store.filterMap fun r =>
    if isApprovedAndActive r now then scheduleExpiry store r.id now else none

/-- Entry statuses used by variant B; deny and manual end remove the entry
instead of tagging it, so only these two statuses are ever stored. -/
inductive StatusB
  | pending
  | active
deriving DecidableEq

/-- A whiteflag entry of variant B (elements of the whiteflags array). -/
structure EntryB where
  id : String
  guildId : String
  tribe : String
  requestedBy : String
  status : StatusB
  tier : String := "25x"
  ign : String := ""
  map : String := ""
  tribemates : Option String := none
  requestedAt : Nat := 0
  durationHours : Option Nat := none
  approvedBy : Option String := none
  approvedAt : Option Nat := none
  expiresAt : Option Nat := none
  staffNote : Option String := none
deriving DecidableEq

/-- FIXED_DURATION_HOURS from variant B. -/
def fixedDurationHours : Nat := 168

/-- normalizeTier from variant B. -/
def normalizeTier (tier : String) : String :=
  if tier == "100x" then "100x" else "25x"

/-- The JS toLowerCase comparison key used by the variant B tribe
matching. -/
def jsLowerStr (s : String) : List Char :=
  s.data.map Char.toLower

/-- The expiry test inside pruneExpiredWithReport: status active and a
truthy expiresAt that has elapsed. -/
def expiredCondB (x : EntryB) (now : Nat) : Bool :=
  x.status == .active &&
    match x.expiresAt with
    | some t => t != 0 && decide (t ≤ now)
    | none => false

/-- pruneExpiredWithReport from variant B: partition the entries into the
kept and the expired, preserving order within each bucket. -/
def pruneB : List EntryB → Nat → List EntryB × List EntryB
  | [], _ => ([], [])
  | x :: xs, now =>
    let rest := pruneB xs now
    if expiredCondB x now then (rest.1, x :: rest.2) else (x :: rest.1, rest.2)

/-- The persistence step of pruneExpiredWithReport: the file is rewritten
with the kept entries only when some entry was dropped. -/
def pruneSaveB (items : List EntryB) (now : Nat) : List EntryB :=
  let kept := (pruneB items now).1
  if kept.length != items.length then kept else items

/-- The findIndex lookup used by the variant B handlers: first entry of
this guild carrying this id. -/
def findReqB (items : List EntryB) (guildId id : String) : Option EntryB :=
  items.find? fun x => x.guildId == guildId && x.id == id

/-- items[idx] = entry at the index found by findIndex: replace the first
entry of this guild carrying this id. -/
def updateB : List EntryB → String → String → EntryB → List EntryB
  | [], _, _, _ => []
  | x :: xs, guildId, id, e =>
    if x.guildId == guildId && x.id == id then e :: xs
    else x :: updateB xs guildId id e

/-- items.splice(idx, 1) at the index found by findIndex: drop the first
entry satisfying the predicate. -/
def removeFirstB : List EntryB → (EntryB → Bool) → List EntryB
  | [], _ => []
  | x :: xs, p => if p x then xs else x :: removeFirstB xs p

/-- Rejection reasons surfaced by variant B handlers. -/
inductive ErrB
  | notFound
  | invalidState (st : StatusB)
  | duplicateEntity
  | reviewChannelMissing
  | validation
deriving DecidableEq

/-- Side-effect intents emitted by variant B handlers, tagged by their
target channel. -/
inductive IntentB
  | reviewPost (id : String)
  | modLog
  | openSeason (id : String)
  | dm (userId : String)
deriving DecidableEq

/-- Result of a variant B handler. -/
structure OutB where
  items : List EntryB
  intents : List IntentB
  res : Option ErrB
deriving DecidableEq

/-- The user modal submit of variant B: length validations, prune, the
pending-or-active duplicate check on the lowercased tribe within the
guild, then persist the pending entry and post it to the review channel.
When the review post fails the handler reloads the file and saves it
again without the entry just added (the rollback branch). -/
def submitB (items : List EntryB) (guildId tier ign tribe mapName tribemates userId : String)
    (now : Nat) (newId : String) (reviewOk : Bool) : OutB :=
  if ign.length < 2 then ⟨items, [], some .validation⟩
  else if tribe.length < 2 then ⟨items, [], some .validation⟩
  else if mapName.length < 2 then ⟨items, [], some .validation⟩
  else
    let kept := (pruneB items now).1
    if (kept.find? fun x => x.guildId == guildId
          && jsLowerStr x.tribe == jsLowerStr tribe
          && (x.status == .pending || x.status == .active)).isSome then
      ⟨kept, [], some .duplicateEntity⟩
    else
      let entry : EntryB :=
        { id := newId, guildId := guildId, tribe := tribe, requestedBy := userId,
          status := .pending, tier := normalizeTier tier, ign := ign, map := mapName,
          tribemates := if tribemates != "" then some tribemates else none,
          requestedAt := now }
      let items2 := kept ++ [entry]
      if reviewOk then ⟨items2, [.reviewPost newId, .modLog], none⟩
      else ⟨items2.filter fun x => x.id != newId, [], some .reviewChannelMissing⟩

/-- The staff approve modal submit of variant B: prune, find the entry in
this guild, reject unless pending, then persist status active with the
fixed 7-day expiry and log and DM. No per-entity uniqueness check is run
here. -/
def approveB (items : List EntryB) (guildId requestId approverId staffNote : String)
    (now : Nat) : OutB :=
  let kept := (pruneB items now).1
  match findReqB kept guildId requestId with
  | none => ⟨kept, [], some .notFound⟩
  | some entry =>
    if entry.status != .pending then ⟨kept, [], some (.invalidState entry.status)⟩
    else
      let entry2 :=
        { entry with status := .active, durationHours := some fixedDurationHours,
                     approvedBy := some approverId, approvedAt := some now,
                     expiresAt := some (now + fixedDurationHours * 60 * 60 * 1000),
                     staffNote := if staffNote != "" then some staffNote else entry.staffNote }
      ⟨updateB kept guildId requestId entry2, [.modLog, .dm entry.requestedBy], none⟩

/-- The deny button of variant B: prune, find, reject unless pending,
then remove the entry and log and DM. -/
def denyB (items : List EntryB) (guildId requestId : String) (now : Nat) : OutB :=
  let kept := (pruneB items now).1
  match findReqB kept guildId requestId with
  | none => ⟨kept, [], some .notFound⟩
  | some entry =>
    if entry.status != .pending then ⟨kept, [], some (.invalidState entry.status)⟩
    else
      ⟨removeFirstB kept (fun x => x.guildId == guildId && x.id == requestId),
       [.modLog, .dm entry.requestedBy], none⟩

/-- The whiteflag_end command of variant B: prune, find the active entry
of this guild by lowercased tribe name, remove it, then log, post the
open season announcement, and DM the requester. -/
def endB (items : List EntryB) (guildId tribeInput : String) (now : Nat) : OutB :=
  let kept := (pruneB items now).1
  let p : EntryB → Bool := fun x =>
    x.guildId == guildId && x.status == .active
      && jsLowerStr x.tribe == jsLowerStr tribeInput
  match kept.find? p with
  | none => ⟨kept, [], some .notFound⟩
  | some ended =>
    ⟨removeFirstB kept p, [.modLog, .openSeason ended.id, .dm ended.requestedBy], none⟩

/-- One round of the minutely auto-expire loop of variant B: prune, then
for each expired entry write a mod-log line and DM the requester. No open
season post is made here. -/
def autoExpireTickB (items : List EntryB) (now : Nat) : List EntryB × List IntentB :=
  let pruned := pruneB items now
  (pruned.1, pruned.2.foldr (fun e acc => .modLog :: .dm e.requestedBy :: acc) [])

/-- A file-system operation performed by the JSON store helpers. -/
inductive FsOp
  | writeFile (p : String)
  | renameFile (src dst : String)
deriving DecidableEq

/-- writeJson from variant A: write the temp file, then rename it onto
the target path. -/
def writeJson (target : String) : List FsOp :=
  [.writeFile (target ++ ".tmp"), .renameFile (target ++ ".tmp") target]

/-- writeJsonSafe from variant B: a single direct write of the target
path (the try/catch only swallows exceptions). -/
def writeJsonSafe (target : String) : List FsOp :=
  [.writeFile target]

/-- The temp-write-then-atomic-rename pattern required by the spec for
every save: first write some other path, then rename it onto the
target. -/
def tempWriteThenRename (trace : List FsOp) (target : String) : Prop :=
  ∃ tmp, tmp ≠ target ∧ trace = [.writeFile tmp, .renameFile tmp target]

/-! Concrete records used by witnesses and counterexamples. -/

/-- A pending variant A request for tribe Alpha by user u1. -/
def aAlphaPending : ReqA := { id := "r1", tribeName := "Alpha", requestedBy := "u1", status := .pending }

/-- An approved, live variant A request for tribe Beta. -/
def aBetaActive : ReqA := { id := "a1", tribeName := "Beta", requestedBy := "u3", status := .approved, approvedAt := .num 1 }

/-- A pending variant A request for tribe Gamma. -/
def aGammaPending : ReqA := { id := "p1", tribeName := "Gamma", requestedBy := "u4", status := .pending }

/-- An approved, live variant A request for the same tribe Gamma in other casing. -/
def aGammaActive : ReqA := { id := "p2", tribeName := "gamma", requestedBy := "u5", status := .approved, approvedAt := .num 1 }

/-- A denied variant A request. -/
def aDenied : ReqA := { id := "d1", tribeName := "Delta", requestedBy := "u6", status := .denied }

/-- A pending variant A request standing alone. -/
def aSoloPending : ReqA := { id := "s1", tribeName := "Solo", requestedBy := "u7", status := .pending }

/-- A variant A record stuck approved with a non-numeric approvedAt. -/
def aStrApproved : ReqA := { id := "r9", tribeName := "T", requestedBy := "u8", status := .approved, approvedAt := .str "oops" }

/-- A variant A record approved with approvedAt absent. -/
def aUndefApproved : ReqA := { id := "u9", tribeName := "U", requestedBy := "u9", status := .approved }

/-- A variant A approved record whose expiry elapsed while offline. -/
def c3r : ReqA := { id := "e1", tribeName := "Old", requestedBy := "u1", status := .approved, approvedAt := .num 1 }

/-- A variant A approved record still live at startup. -/
def c3q : ReqA := { id := "e2", tribeName := "New", requestedBy := "u2", status := .approved, approvedAt := .num (sevenDaysMs + 1) }

/-- An active variant B entry for tribe Alpha. -/
def bAlphaActive : EntryB := { id := "b1", guildId := "g", tribe := "Alpha", requestedBy := "u1", status := .active, expiresAt := some 999999 }

/-- A pending variant B entry for the same tribe Alpha in other casing. -/
def bAlphaPending : EntryB := { id := "b2", guildId := "g", tribe := "alpha", requestedBy := "u2", status := .pending }

/-- A pending variant B entry for tribe Beta. -/
def bBetaPending : EntryB := { id := "b3", guildId := "g", tribe := "Beta", requestedBy := "u3", status := .pending }

/-- An active variant B entry for tribe Kappa. -/
def bKappaActive : EntryB := { id := "b4", guildId := "g", tribe := "Kappa", requestedBy := "u4", status := .active, expiresAt := some 999999 }

/-! Helper lemmas. -/

/-- Two members of an id-keyed collection carrying the same id are the
same record. -/
theorem reqA_id_injOn (store : List ReqA) (hnd : idsNodupA store) :
    ∀ x ∈ store, ∀ r ∈ store, x.id = r.id → x = r := by
  induction store with
  | nil => intro x hx; cases hx
  | cons a l ih =>
    simp only [idsNodupA, List.map_cons, List.nodup_cons] at hnd
    intro x hx r hr he
    rcases List.mem_cons.mp hx with hx1 | hx2
    · rcases List.mem_cons.mp hr with hr1 | hr2
      · rw [hx1, hr1]
      · subst hx1
        refine absurd (show x.id ∈ l.map fun r => r.id from ?_) hnd.1
        rw [he]; exact List.mem_map_of_mem (fun r => r.id) hr2
    · rcases List.mem_cons.mp hr with hr1 | hr2
      · subst hr1
        refine absurd (show r.id ∈ l.map fun r => r.id from ?_) hnd.1
        rw [← he]; exact List.mem_map_of_mem (fun r => r.id) hx2
      · exact ih hnd.2 x hx2 r hr2 he

/-- Looking a member up by its id in an id-keyed collection finds it,
through any id-preserving per-record rewrite. -/
theorem lookupA_map (store : List ReqA) (f : ReqA → ReqA)
    (hf : ∀ x, (f x).id = x.id) (r : ReqA) (hnd : idsNodupA store) (hr : r ∈ store) :
    lookupA (store.map f) r.id = some (f r) := by
  induction store with
  | nil => cases hr
  | cons a l ih =>
    simp only [idsNodupA, List.map_cons, List.nodup_cons] at hnd
    rcases List.mem_cons.mp hr with rfl | hr
    · simp [lookupA, List.find?_cons_of_pos, hf]
    · have hne : a.id ≠ r.id := fun h => hnd.1 (h ▸ List.mem_map_of_mem (fun x => x.id) hr)
      have : lookupA (l.map f) r.id = some (f r) := ih hnd.2 hr
      simp only [lookupA, List.map_cons] at this ⊢
      rw [List.find?_cons_of_neg]
      · exact this
      · simp [hf, hne]

/-- Looking a member up by its id finds it. -/
theorem lookupA_self (store : List ReqA) (r : ReqA) (hnd : idsNodupA store)
    (hr : r ∈ store) : lookupA store r.id = some r := by
  have h := lookupA_map store id (fun _ => rfl) r hnd hr
  simpa using h

/-- A successful lookup returns a record carrying the looked-up id. -/
theorem lookupA_id (store : List ReqA) (id : String) (r : ReqA)
    (h : lookupA store id = some r) : r.id = id := by
  have := List.find?_some h
  simpa using this

/-- A successful lookup returns a member. -/
theorem lookupA_mem (store : List ReqA) (id : String) (r : ReqA)
    (h : lookupA store id = some r) : r ∈ store :=
  List.mem_of_find?_eq_some h

/-- After the write-back of a record under an id that was present, looking
that id up yields the written record. -/
theorem lookupA_updateA (store : List ReqA) (id : String) (r2 : ReqA)
    (hid : r2.id = id) (h : (lookupA store id).isSome = true) :
    lookupA (updateA store id r2) id = some r2 := by
  induction store with
  | nil => simp [lookupA] at h
  | cons a l ih =>
    by_cases ha : a.id = id
    · simp [updateA, lookupA, ha, List.find?_cons_of_pos, hid]
    · have h2 : (lookupA l id).isSome = true := by
        simpa [lookupA, List.find?_cons_of_neg, ha] using h
      have := ih h2
      simp only [updateA, List.map_cons] at this ⊢
      rw [if_neg (by simp [ha])]
      simpa [lookupA, List.find?_cons_of_neg, ha] using this

/-- The kept bucket of pruneExpiredWithReport is the filter of the
non-expired entries. -/
theorem pruneB_fst (items : List EntryB) (now : Nat) :
    (pruneB items now).1 = items.filter fun x => !expiredCondB x now := by
  induction items with
  | nil => rfl
  | cons x xs ih =>
    cases hx : expiredCondB x now <;>
      simp [pruneB, hx, List.filter_cons, ih]

/-- The expired bucket of pruneExpiredWithReport is the filter of the
expired entries. -/
theorem pruneB_snd (items : List EntryB) (now : Nat) :
    (pruneB items now).2 = items.filter fun x => expiredCondB x now := by
  induction items with
  | nil => rfl
  | cons x xs ih =>
    cases hx : expiredCondB x now <;>
      simp [pruneB, hx, List.filter_cons, ih]

/-! Claim theorems. -/

/-- C5: pruneExpired partitions the collection into the records that are
active with an elapsed (truthy) expiry instant and all the others, the
persistence step writes exactly the kept set, and an immediate second call
returns an empty expired set. -/
theorem c5_prune_partition_idempotent (items : List EntryB) (now : Nat) :
    (pruneB items now).2 = items.filter (fun x => expiredCondB x now)
    ∧ (pruneB items now).1 = items.filter (fun x => !expiredCondB x now)
    ∧ pruneSaveB items now = (pruneB items now).1
    ∧ (pruneB (pruneB items now).1 now).2 = [] := by
  refine ⟨pruneB_snd items now, pruneB_fst items now, ?_, ?_⟩
  · have hsub : (pruneB items now).1.Sublist items := by
      rw [pruneB_fst]; exact List.filter_sublist items
    unfold pruneSaveB
    by_cases h : (pruneB items now).1.length = items.length
    · rw [if_neg (by simp [h]), hsub.eq_of_length h]
    · rw [if_pos (by simp [h])]
  · rw [pruneB_snd, pruneB_fst, List.filter_filter]
    refine List.filter_eq_nil_iff.mpr ?_
    intro a _
    simp

/-- C9 counterexample: the variant B save helper writes the target path
directly, with no temp-file write and no rename, so the save of the
whiteflags collection does not follow the required pattern. -/
theorem c9_counterexample :
    ¬ tempWriteThenRename (writeJsonSafe "whiteflags.json") "whiteflags.json" := by
  rintro ⟨tmp, hne, h⟩
  simp [writeJsonSafe] at h

/-- C9 amended: the variant A save helper does write a temp file and then
atomically rename it onto the target path; variant B does not. -/
theorem c9_amended (target : String) :
    tempWriteThenRename (writeJson target) target := by
  refine ⟨target ++ ".tmp", ?_, rfl⟩
  intro h
  have h2 : target.length + ".tmp".length = target.length := by
    rw [← String.length_append, h]
  have h3 : ".tmp".length = 4 := rfl
  omega

/-- C4: the timeout callback re-fetches the record and leaves the store
untouched and emits nothing whenever the record is absent or its status is
no longer approved; likewise the variant B prune keeps every pending entry
unchanged and never reports it expired. -/
theorem c4_stale_timer_noop (store : List ReqA) (id : String) (now : Nat)
    (h : lookupA store id = none ∨ ∃ r, lookupA store id = some r ∧ r.status ≠ .approved) :
    timerFireA store id now = (store, [])
    ∧ ∀ (items : List EntryB) (now2 : Nat) (x : EntryB), x ∈ items → x.status = .pending →
        x ∈ (pruneB items now2).1 ∧ x ∉ (pruneB items now2).2 := by
  constructor
  · rcases h with h | ⟨r, hr, hst⟩
    · simp [timerFireA, h]
    · simp [timerFireA, hr, hst]
  · intro items now2 x hx hst
    have hcond : expiredCondB x now2 = false := by
      simp [expiredCondB, hst]
    constructor
    · rw [pruneB_fst]
      exact List.mem_filter.mpr ⟨hx, by simp [hcond]⟩
    · rw [pruneB_snd]
      intro hmem
      have := (List.mem_filter.mp hmem).2
      rw [hcond] at this
      cases this

/-- C4 witness: a timer firing for an already denied request is a no-op. -/
theorem c4_witness :
    timerFireA [aDenied] "d1" 123 = ([aDenied], [])
    ∧ ∀ (items : List EntryB) (now2 : Nat) (x : EntryB), x ∈ items → x.status = .pending →
        x ∈ (pruneB items now2).1 ∧ x ∉ (pruneB items now2).2 :=
  c4_stale_timer_noop [aDenied] "d1" 123 (Or.inr ⟨aDenied, by decide, by decide⟩)

/-- An armed timer returned by scheduleExpiry carries the id that was
passed in. -/
theorem scheduleExpiry_id (store : List ReqA) (id : String) (now : Nat)
    (pr : String × Option Nat) (h : scheduleExpiry store id now = some pr) :
    pr.1 = id := by
  unfold scheduleExpiry at h
  split at h
  · cases h
  · split at h
    · cases h
    · split at h
      · cases h
      · cases h; rfl

/-- C10 counterexample: a record stuck approved with a truthy non-numeric
approvedAt is reported inactive by isApprovedAndActive, yet scheduleExpiry
does not do nothing for it: the truthiness guard passes and a timer is
armed (with no meaningful delay). -/
theorem c10_counterexample :
    isApprovedAndActive aStrApproved 0 = false
    ∧ scheduleExpiry [aStrApproved] "r9" 0 = some ("r9", none) := by decide

/-- C10 amended: a record whose approvedAt is missing or not a number is
inactive for isApprovedAndActive, is never returned by the active-grant
query used in the duplicate checks, is skipped by the startup
expiry sweep, and is never armed by the startup reschedule loop;
scheduleExpiry returns early when approvedAt is falsy (in particular when
it is absent), though not for every non-numeric value. -/
theorem c10_amended :
    (∀ (r : ReqA) (now : Nat), r.approvedAt.toNum? = none →
        isApprovedAndActive r now = false)
    ∧ (∀ (store : List ReqA) (name : String) (excl : Option String) (now : Nat) (r : ReqA),
        getActiveApprovedForTribe store name excl now = some r →
        isApprovedAndActive r now = true)
    ∧ (∀ (store : List ReqA) (id : String) (now : Nat) (r : ReqA),
        lookupA store id = some r → r.approvedAt.truthy = false →
        scheduleExpiry store id now = none)
    ∧ (∀ (r : ReqA) (now : Nat), r.approvedAt.toNum? = none → overdueA r now = false)
    ∧ (∀ (store : List ReqA) (now : Nat) (r : ReqA), idsNodupA store → r ∈ store →
        r.approvedAt.toNum? = none → ∀ d, (r.id, d) ∉ rescheduleA store now) := by
  have hinactive : ∀ (r : ReqA) (now : Nat), r.approvedAt.toNum? = none →
      isApprovedAndActive r now = false := by
    intro r now h
    simp [isApprovedAndActive, h]
  refine ⟨hinactive, ?_, ?_, ?_, ?_⟩
  · intro store name excl now r h
    have hp := List.find?_some h
    cases hA : isApprovedAndActive r now
    · rw [hA, Bool.and_false] at hp; cases hp
    · rfl
  · intro store id now r h ht
    simp [scheduleExpiry, h, ht]
  · intro r now h
    simp [overdueA, h]
  · intro store now r hnd hr h d hmem
    unfold rescheduleA at hmem
    obtain ⟨x, hx, hfx⟩ := List.mem_filterMap.mp hmem
    by_cases hact : isApprovedAndActive x now = true
    · rw [if_pos hact] at hfx
      have hid : x.id = r.id := (scheduleExpiry_id store x.id now (r.id, d) hfx).symm
      have hxr : x = r := reqA_id_injOn store hnd x hx r hr hid
      rw [hxr] at hact
      rw [hinactive r now h] at hact
      cases hact
    · rw [if_neg hact] at hfx
      cases hfx

/-- C10 witness: concrete records with a string-valued and with an absent
approvedAt, run through the amended statement. -/
theorem c10_witness :
    isApprovedAndActive aStrApproved 5 = false
    ∧ isApprovedAndActive aBetaActive 5 = true
    ∧ scheduleExpiry [aUndefApproved] "u9" 5 = none
    ∧ overdueA aStrApproved 5 = false
    ∧ ∀ d, (aStrApproved.id, d) ∉ rescheduleA [aStrApproved] 5 := by
  obtain ⟨h1, h2, h3, h4, h5⟩ := c10_amended
  exact ⟨h1 aStrApproved 5 (by decide),
         h2 [aBetaActive] "Beta" none 5 aBetaActive (by decide),
         h3 [aUndefApproved] "u9" 5 aUndefApproved (by decide) (by decide),
         h4 aStrApproved 5 (by decide),
         h5 [aStrApproved] 5 aStrApproved (by unfold idsNodupA; decide) (by decide) (by decide)⟩

/-- A variant A approval of a record that is not pending is rejected with
InvalidState and leaves the store untouched. -/
theorem approveA_invalid (store : List ReqA) (id approverId : String) (now : Nat)
    (r : ReqA) (hl : lookupA store id = some r) (hs : r.status ≠ .pending) :
    (approveA store id approverId now).res = some (.invalidState r.status)
    ∧ (approveA store id approverId now).store = store := by
  simp [approveA, hl, hs]

/-- Characterization of a successful variant A approval: the record was
present and pending, and the store was rewritten with the approved
record. -/
theorem approveA_ok (store : List ReqA) (id approverId : String) (now : Nat)
    (h : (approveA store id approverId now).res = none) :
    ∃ req, lookupA store id = some req ∧ req.status = .pending ∧
      (approveA store id approverId now).store = updateA store id
        { req with status := .approved, approvedAt := .num now,
                   approvedBy := some approverId } := by
  cases hl : lookupA store id with
  | none => simp [approveA, hl] at h
  | some req =>
    by_cases hs : req.status = .pending
    · cases hd : (getActiveApprovedForTribe store req.tribeName (some id) now).isSome with
      | true => simp [approveA, hl, hs, hd] at h
      | false =>
        refine ⟨req, rfl, hs, ?_⟩
        simp [approveA, hl, hs, hd]
    · simp [approveA, hl, hs] at h

/-- C1 counterexample: in variant A a second submission for an entity that
already has a pending record succeeds, creating a second pending record
for the same entity, instead of failing with DuplicateEntity. -/
theorem c1_counterexample :
    (submitA [aAlphaPending] "u2" "Alpha" "i2" "m" "s" 1000 "r2" true).res = none
    ∧ ((submitA [aAlphaPending] "u2" "Alpha" "i2" "m" "s" 1000 "r2" true).store.filter
        (fun r => normalizeTribeName r.tribeName == normalizeTribeName "Alpha"
          && (r.status == .pending || r.status == .approved))).length = 2 := by decide

/-- C1 amended: the submission paths reject a duplicate entity as far as
each variant checks: variant A submit fails with DuplicateEntity when the
entity has an active approved grant (pending duplicates are not blocked),
and variant B submit fails with DuplicateEntity when the guild has any
pending or active record for the tribe; in both cases no record is
added. -/
theorem c1_amended :
    (∀ (store : List ReqA) (userId tribe ign mapName srv : String) (now : Nat)
        (newId : String) (chOk : Bool),
      getPendingRequestForUser store userId = none →
      (getActiveApprovedForTribe store tribe none now).isSome = true →
      (submitA store userId tribe ign mapName srv now newId chOk).res = some .duplicateEntity
      ∧ (submitA store userId tribe ign mapName srv now newId chOk).store = store)
    ∧ (∀ (items : List EntryB) (guildId tier ign tribe mapName mates userId : String)
        (now : Nat) (newId : String) (rOk : Bool),
      2 ≤ ign.length → 2 ≤ tribe.length → 2 ≤ mapName.length →
      ((pruneB items now).1.find? (fun x => x.guildId == guildId
          && jsLowerStr x.tribe == jsLowerStr tribe
          && (x.status == .pending || x.status == .active))).isSome = true →
      (submitB items guildId tier ign tribe mapName mates userId now newId rOk).res
          = some .duplicateEntity
      ∧ (submitB items guildId tier ign tribe mapName mates userId now newId rOk).items
          = (pruneB items now).1) := by
  constructor
  · intro store userId tribe ign mapName srv now newId chOk h1 h2
    simp [submitA, h1, h2]
  · intro items guildId tier ign tribe mapName mates userId now newId rOk hi htr hm hdup
    have hi2 : ¬(ign.length < 2) := by omega
    have htr2 : ¬(tribe.length < 2) := by omega
    have hm2 : ¬(mapName.length < 2) := by omega
    simp [submitB, hi2, htr2, hm2, hdup]

/-- C1 witness: a live Beta grant blocks a variant A submission for Beta,
and a pending beta entry blocks a variant B submission for beta. -/
theorem c1_witness :
    ((submitA [aBetaActive] "u2" "Beta" "i" "m" "s" 5 "n1" true).res = some .duplicateEntity
      ∧ (submitA [aBetaActive] "u2" "Beta" "i" "m" "s" 5 "n1" true).store = [aBetaActive])
    ∧ ((submitB [bBetaPending] "g" "25x" "ii" "beta" "mm" "" "u9" 5 "n2" true).res
          = some .duplicateEntity
      ∧ (submitB [bBetaPending] "g" "25x" "ii" "beta" "mm" "" "u9" 5 "n2" true).items
          = (pruneB [bBetaPending] 5).1) := by
  obtain ⟨h1, h2⟩ := c1_amended
  exact ⟨h1 [aBetaActive] "u2" "Beta" "i" "m" "s" 5 "n1" true (by decide) (by decide),
         h2 [bBetaPending] "g" "25x" "ii" "beta" "mm" "" "u9" 5 "n2" true
           (by decide) (by decide) (by decide) (by decide)⟩

/-- C2 counterexample: variant B approval runs no uniqueness re-check: a
pending request whose entity already has another active record is
approved, leaving two active records for the same entity. -/
theorem c2_counterexample :
    (approveB [bAlphaActive, bAlphaPending] "g" "b2" "staff" "" 100).res = none
    ∧ ((approveB [bAlphaActive, bAlphaPending] "g" "b2" "staff" "" 100).items.filter
        (fun x => jsLowerStr x.tribe == jsLowerStr "Alpha" && x.status == .active)).length
        = 2 := by decide

/-- C2 amended: only variant A re-runs the uniqueness check at approval
time: approving a pending request whose entity already has another active
record fails with DuplicateEntity and the record remains pending with the
store untouched; variant B approval checks only the pending status. -/
theorem c2_amended (store : List ReqA) (id approverId : String) (now : Nat) (req : ReqA)
    (hl : lookupA store id = some req) (hp : req.status = .pending)
    (hdup : (getActiveApprovedForTribe store req.tribeName (some id) now).isSome = true) :
    (approveA store id approverId now).res = some .duplicateEntity
    ∧ (approveA store id approverId now).store = store
    ∧ lookupA (approveA store id approverId now).store id = some req := by
  simp [approveA, hl, hp, hdup]

/-- C2 witness: a pending Gamma request cannot be approved while another
gamma grant is live. -/
theorem c2_witness :
    (approveA [aGammaPending, aGammaActive] "p1" "adm" 5).res = some .duplicateEntity
    ∧ (approveA [aGammaPending, aGammaActive] "p1" "adm" 5).store
        = [aGammaPending, aGammaActive]
    ∧ lookupA (approveA [aGammaPending, aGammaActive] "p1" "adm" 5).store "p1"
        = some aGammaPending :=
  c2_amended [aGammaPending, aGammaActive] "p1" "adm" 5 aGammaPending
    (by decide) (by decide) (by decide)

/-- C6: approving a record that is not pending fails with InvalidState and
leaves the store untouched in both variants, and after a successful
variant A approval an immediate second approval of the same id fails with
InvalidState. -/
theorem c6_invalid_state :
    (∀ (store : List ReqA) (id approverId : String) (now : Nat) (r : ReqA),
      lookupA store id = some r → r.status ≠ .pending →
      (approveA store id approverId now).res = some (.invalidState r.status)
      ∧ (approveA store id approverId now).store = store)
    ∧ (∀ (store : List ReqA) (id approverId : String) (now : Nat),
      (approveA store id approverId now).res = none →
      (approveA (approveA store id approverId now).store id approverId now).res
        = some (.invalidState .approved))
    ∧ (∀ (items : List EntryB) (guildId requestId approverId staffNote : String)
        (now : Nat) (e : EntryB),
      findReqB (pruneB items now).1 guildId requestId = some e → e.status ≠ .pending →
      (approveB items guildId requestId approverId staffNote now).res
          = some (.invalidState e.status)
      ∧ (approveB items guildId requestId approverId staffNote now).items
          = (pruneB items now).1) := by
  refine ⟨?_, ?_, ?_⟩
  · intro store id approverId now r hl hs
    exact approveA_invalid store id approverId now r hl hs
  · intro store id approverId now h
    obtain ⟨req, hl, hs, hst⟩ := approveA_ok store id approverId now h
    have hidreq : req.id = id := lookupA_id store id req hl
    have hsome : (lookupA store id).isSome = true := by rw [hl]; rfl
    have hl2 := lookupA_updateA store id { req with status := .approved, approvedAt := .num now, approvedBy := some approverId } hidreq hsome
    rw [← hst] at hl2
    have hs2 : ({ req with status := .approved, approvedAt := .num now, approvedBy := some approverId } : ReqA).status ≠ StatusA.pending := by simp
    exact (approveA_invalid _ id approverId now _ hl2 hs2).1
  · intro items guildId requestId approverId staffNote now e hf hs
    simp [approveB, hf, hs]

/-- C6 witness: approving a denied request fails; approving twice in a row
fails the second time; approving an already active variant B entry
fails. -/
theorem c6_witness :
    ((approveA [aDenied] "d1" "adm" 7).res = some (.invalidState StatusA.denied)
      ∧ (approveA [aDenied] "d1" "adm" 7).store = [aDenied])
    ∧ (approveA (approveA [aSoloPending] "s1" "adm" 7).store "s1" "adm" 7).res
        = some (.invalidState .approved)
    ∧ ((approveB [bKappaActive] "g" "b4" "adm" "" 7).res = some (.invalidState StatusB.active)
      ∧ (approveB [bKappaActive] "g" "b4" "adm" "" 7).items = (pruneB [bKappaActive] 7).1) := by
  obtain ⟨h1, h2, h3⟩ := c6_invalid_state
  exact ⟨h1 [aDenied] "d1" "adm" 7 aDenied (by decide) (by decide),
         h2 [aSoloPending] "s1" "adm" 7 (by decide),
         h3 [bKappaActive] "g" "b4" "adm" "" 7 bKappaActive (by decide) (by decide)⟩

/-- Filtering the admin expiry intents for one id mirrors filtering the
underlying records for that id. -/
theorem filter_adminExpired_map (l : List ReqA) (i : String) :
    ((l.map fun x => IntentA.adminExpired x.id).filter fun j => j == .adminExpired i)
      = ((l.filter fun x => x.id == i).map fun x => IntentA.adminExpired x.id) := by
  induction l with
  | nil => rfl
  | cons a l ih =>
    by_cases h : a.id = i
    · simp [List.filter_cons, h, ih]
    · simp [List.filter_cons, h, ih]

/-- When no record of the list carries the id, the double filter by a
predicate and by that id is empty. -/
theorem filter_id_nil (l : List ReqA) (i : String) (p : ReqA → Bool)
    (h : ∀ x ∈ l, x.id ≠ i) :
    ((l.filter p).filter fun x => x.id == i) = [] := by
  induction l with
  | nil => rfl
  | cons a l ih =>
    have ha := h a (List.mem_cons_self a l)
    have ih2 := ih fun x hx => h x (List.mem_cons_of_mem a hx)
    by_cases hp2 : p a = true
    · simp [List.filter_cons, hp2, ha, ih2]
    · simp [List.filter_cons, hp2, ih2]

/-- In an id-keyed collection, filtering by a predicate the member
satisfies and then by the member's id leaves exactly that member. -/
theorem filter_id_eq_singleton (store : List ReqA) (r : ReqA) (p : ReqA → Bool)
    (hnd : idsNodupA store) (hr : r ∈ store) (hp : p r = true) :
    ((store.filter p).filter fun x => x.id == r.id) = [r] := by
  induction store with
  | nil => cases hr
  | cons a l ih =>
    simp only [idsNodupA, List.map_cons, List.nodup_cons] at hnd
    rcases List.mem_cons.mp hr with h1 | h2
    · have hpa : p a = true := by rw [← h1]; exact hp
      have htail : ((l.filter p).filter fun x => x.id == r.id) = [] := by
        refine filter_id_nil l r.id p fun x hx hxe => ?_
        rw [h1] at hxe
        exact hnd.1 (hxe ▸ List.mem_map_of_mem (fun y => y.id) hx)
      rw [h1]
      simp [List.filter_cons, hpa, h1 ▸ htail]
    · have hane : a.id ≠ r.id := fun he => hnd.1 (he ▸ List.mem_map_of_mem (fun y => y.id) h2)
      have ih2 := ih hnd.2 h2
      by_cases hp2 : p a = true
      · simp [List.filter_cons, hp2, hane, ih2]
      · simp [List.filter_cons, hp2, ih2]

/-- C3: at startup every approved record whose seven-day window elapsed
while offline is transitioned to expired with exactly one admin expiry
notice, the reschedule loop arms no timer for it (so no duplicate
notification can follow), and every still-live approved record is armed at
its remaining delay. -/
theorem c3_startup_reconciliation (store : List ReqA) (now now2 : Nat) (r : ReqA) (t : Nat)
    (hnd : idsNodupA store) (hr : r ∈ store) (hst : r.status = .approved)
    (hat : r.approvedAt = .num t) (ht : 0 < t) (hpast : t + sevenDaysMs ≤ now)
    (hle : now ≤ now2) :
    lookupA (expireOverdueA store now true).1 r.id
        = some { r with status := .expired, expiredAt := some now }
    ∧ ((expireOverdueA store now true).2.filter fun j => j == .adminExpired r.id)
        = [.adminExpired r.id]
    ∧ (∀ d, (r.id, d) ∉ rescheduleA (expireOverdueA store now true).1 now2)
    ∧ (∀ (q : ReqA) (tq : Nat), q ∈ store → q.status = .approved →
        q.approvedAt = .num tq → 0 < tq → now2 < tq + sevenDaysMs →
        (q.id, some (tq + sevenDaysMs - now2))
          ∈ rescheduleA (expireOverdueA store now true).1 now2) := by
  have ht0 : t ≠ 0 := Nat.pos_iff_ne_zero.mp ht
  have hoverdue : overdueA r now = true := by
    simp [overdueA, hst, hat, JVal.truthy, JVal.toNum?, ht0, hpast]
  have hfid : ∀ x, (expireMark now x).id = x.id := by
    intro x
    unfold expireMark
    split <;> rfl
  have hfst : (expireOverdueA store now true).1 = store.map (expireMark now) := rfl
  have hsnd : (expireOverdueA store now true).2
      = (store.filter fun x => overdueA x now).map fun x => IntentA.adminExpired x.id := by
    simp [expireOverdueA]
  have hmr : expireMark now r = { r with status := .expired, expiredAt := some now } := by
    simp [expireMark, hoverdue]
  refine ⟨?_, ?_, ?_, ?_⟩
  · rw [hfst, ← hmr]
    exact lookupA_map store (expireMark now) hfid r hnd hr
  · rw [hsnd, filter_adminExpired_map,
        filter_id_eq_singleton store r (fun x => overdueA x now) hnd hr hoverdue]
    rfl
  · intro d hmem
    unfold rescheduleA at hmem
    obtain ⟨x, hx, hfx⟩ := List.mem_filterMap.mp hmem
    by_cases hact : isApprovedAndActive x now2 = true
    · rw [if_pos hact] at hfx
      have hxid : x.id = r.id :=
        (scheduleExpiry_id (expireOverdueA store now true).1 x.id now2 (r.id, d) hfx).symm
      rw [hfst] at hx
      obtain ⟨y, hy, hyx⟩ := List.mem_map.mp hx
      have hyid : y.id = r.id := by rw [← hxid, ← hyx]; exact (hfid y).symm
      have hyr : y = r := reqA_id_injOn store hnd y hy r hr hyid
      rw [hyr, hmr] at hyx
      rw [← hyx] at hact
      simp [isApprovedAndActive] at hact
    · rw [if_neg hact] at hfx
      cases hfx
  · intro q tq hq hqst hqat hqt hlive
    have hnotpast : ¬(tq + sevenDaysMs ≤ now) := by omega
    have hnover : overdueA q now = false := by
      simp [overdueA, hqst, hqat, JVal.truthy, JVal.toNum?, hnotpast]
    have hfq : expireMark now q = q := by simp [expireMark, hnover]
    have hact : isApprovedAndActive q now2 = true := by
      simp [isApprovedAndActive, hqst, hqat, JVal.toNum?, hlive]
    have hlq : lookupA (store.map (expireMark now)) q.id = some q := by
      have := lookupA_map store (expireMark now) hfid q hnd hq
      rw [hfq] at this
      exact this
    unfold rescheduleA
    refine List.mem_filterMap.mpr ⟨q, ?_, ?_⟩
    · rw [hfst]
      have := List.mem_map_of_mem (expireMark now) hq
      rw [hfq] at this
      exact this
    · rw [if_pos hact, hfst]
      have hq0 : tq ≠ 0 := Nat.pos_iff_ne_zero.mp hqt
      simp [scheduleExpiry, hlq, hqst, JVal.truthy, hqat, hq0, schedDelay]

/-- C3 witness: one overdue and one live approved record at startup; the
overdue record is expired with exactly one notice and only the live record
is re-armed, at its remaining delay. -/
theorem c3_witness :
    lookupA (expireOverdueA [c3r, c3q] (sevenDaysMs + 1) true).1 c3r.id
        = some { c3r with status := .expired, expiredAt := some (sevenDaysMs + 1) }
    ∧ ((expireOverdueA [c3r, c3q] (sevenDaysMs + 1) true).2.filter
        fun j => j == .adminExpired c3r.id) = [.adminExpired c3r.id]
    ∧ (∀ d, (c3r.id, d) ∉ rescheduleA (expireOverdueA [c3r, c3q] (sevenDaysMs + 1) true).1
        (sevenDaysMs + 1))
    ∧ (c3q.id, some sevenDaysMs)
        ∈ rescheduleA (expireOverdueA [c3r, c3q] (sevenDaysMs + 1) true).1 (sevenDaysMs + 1) := by
  have h := c3_startup_reconciliation [c3r, c3q] (sevenDaysMs + 1) (sevenDaysMs + 1) c3r 1
    (by unfold idsNodupA; decide) (by decide) (by decide) (by decide) (by decide)
    (by decide) (by decide)
  have h4 := h.2.2.2 c3q (sevenDaysMs + 1) (by decide) (by decide) (by decide)
    (by decide) (by decide)
  have hdel : (sevenDaysMs + 1) + sevenDaysMs - (sevenDaysMs + 1) = sevenDaysMs := by omega
  rw [hdel] at h4
  exact ⟨h.1, h.2.1, h.2.2.1, h4⟩

/-- C7: no expiry path and no other transition posts an open season
announcement: the timer callback, the startup sweep, submit, approve and
deny in variant A, and the auto-expire tick, submit, approve and deny in
variant B emit no announce-channel intent; the manual end-early paths do
post the open season announcement. -/
theorem c7_announce_only_end_early :
    (∀ (store : List ReqA) (id : String) (now : Nat) (j : String),
      IntentA.announceOpenSeason j ∉ (timerFireA store id now).2)
    ∧ (∀ (store : List ReqA) (now : Nat) (chOk : Bool) (j : String),
      IntentA.announceOpenSeason j ∉ (expireOverdueA store now chOk).2)
    ∧ (∀ (store : List ReqA) (userId tribe ign mapName srv : String) (now : Nat)
        (newId : String) (chOk : Bool) (j : String),
      IntentA.announceOpenSeason j ∉ (submitA store userId tribe ign mapName srv now newId chOk).intents)
    ∧ (∀ (store : List ReqA) (id approverId : String) (now : Nat) (j : String),
      IntentA.announceOpenSeason j ∉ (approveA store id approverId now).intents)
    ∧ (∀ (store : List ReqA) (id denierId : String) (now : Nat) (j : String),
      IntentA.announceOpenSeason j ∉ (denyA store id denierId now).intents)
    ∧ (∀ (store : List ReqA) (id actorId : String) (now : Nat),
      (endEarlyA store id actorId now).res = none →
      IntentA.announceOpenSeason id ∈ (endEarlyA store id actorId now).intents)
    ∧ (∀ (items : List EntryB) (now : Nat) (j : String),
      IntentB.openSeason j ∉ (autoExpireTickB items now).2)
    ∧ (∀ (items : List EntryB) (guildId tier ign tribe mapName mates userId : String)
        (now : Nat) (newId : String) (rOk : Bool) (j : String),
      IntentB.openSeason j ∉ (submitB items guildId tier ign tribe mapName mates userId now newId rOk).intents)
    ∧ (∀ (items : List EntryB) (guildId requestId approverId staffNote : String)
        (now : Nat) (j : String),
      IntentB.openSeason j ∉ (approveB items guildId requestId approverId staffNote now).intents)
    ∧ (∀ (items : List EntryB) (guildId requestId : String) (now : Nat) (j : String),
      IntentB.openSeason j ∉ (denyB items guildId requestId now).intents)
    ∧ (∀ (items : List EntryB) (guildId tribeInput : String) (now : Nat),
      (endB items guildId tribeInput now).res = none →
      ∃ i, IntentB.openSeason i ∈ (endB items guildId tribeInput now).intents) := by
  refine ⟨?_, ?_, ?_, ?_, ?_, ?_, ?_, ?_, ?_, ?_, ?_⟩
  · intro store id now j
    unfold timerFireA
    repeat' split
    all_goals simp
  · intro store now chOk j
    unfold expireOverdueA
    repeat' split
    all_goals simp [List.mem_map]
  · intro store userId tribe ign mapName srv now newId chOk j
    unfold submitA
    repeat' split
    all_goals simp
  · intro store id approverId now j
    unfold approveA
    repeat' split
    all_goals simp
  · intro store id denierId now j
    unfold denyA
    repeat' split
    all_goals simp
  · intro store id actorId now h
    cases hl : lookupA store id with
    | none => simp [endEarlyA, hl] at h
    | some req =>
      by_cases hs : req.status = .approved
      · simp [endEarlyA, hl, hs]
      · simp [endEarlyA, hl, hs] at h
  · intro items now j
    show IntentB.openSeason j ∉ (pruneB items now).2.foldr (fun e acc => .modLog :: .dm e.requestedBy :: acc) []
    induction (pruneB items now).2 with
    | nil => simp
    | cons e l ih => simpa using ih
  · intro items guildId tier ign tribe mapName mates userId now newId rOk j
    unfold submitB
    repeat' split
    all_goals simp
    all_goals (split <;> simp)
  · intro items guildId requestId approverId staffNote now j
    cases hf : findReqB (pruneB items now).1 guildId requestId with
    | none => simp [approveB, hf]
    | some entry =>
      by_cases hs : entry.status = StatusB.pending
      · simp [approveB, hf, hs]
      · simp [approveB, hf, hs]
  · intro items guildId requestId now j
    cases hf : findReqB (pruneB items now).1 guildId requestId with
    | none => simp [denyB, hf]
    | some entry =>
      by_cases hs : entry.status = StatusB.pending
      · simp [denyB, hf, hs]
      · simp [denyB, hf, hs]
  · intro items guildId tribeInput now h
    cases hf : ((pruneB items now).1.find? fun x =>
        x.guildId == guildId && x.status == .active
          && jsLowerStr x.tribe == jsLowerStr tribeInput) with
    | none => simp [endB, hf] at h
    | some ended =>
      exact ⟨ended.id, by simp [endB, hf]⟩

/-- C7 witness: a concrete timer expiry and auto-expire tick announce
nothing, while both manual end-early paths post the open season
announcement. -/
theorem c7_witness :
    IntentA.announceOpenSeason "zz" ∉ (timerFireA [aBetaActive] "a1" 99).2
    ∧ IntentA.announceOpenSeason "a1" ∈ (endEarlyA [aBetaActive] "a1" "adm" 99).intents
    ∧ IntentB.openSeason "zz" ∉ (autoExpireTickB [bKappaActive] 5).2
    ∧ ∃ i, IntentB.openSeason i ∈ (endB [bKappaActive] "g" "kappa" 5).intents := by
  obtain ⟨h1, h2, h3, h4, h5, h6, h7, h8, h9, h10, h11⟩ := c7_announce_only_end_early
  exact ⟨h1 [aBetaActive] "a1" 99 "zz",
         h6 [aBetaActive] "a1" "adm" 99 (by decide),
         h7 [bKappaActive] 5 "zz",
         h11 [bKappaActive] "g" "kappa" 5 (by decide)⟩

/-- C8 counterexample: in variant B the submitted record is persisted and
then removed again when the review-surface post fails: a notification
delivery failure does alter the already-persisted state. -/
theorem c8_counterexample :
    (submitB [] "g" "25x" "ign" "tribe" "mapx" "" "u1" 100 "n1" true).items.length = 1
    ∧ (submitB [] "g" "25x" "ign" "tribe" "mapx" "" "u1" 100 "n1" false).items = []
    ∧ (submitB [] "g" "25x" "ign" "tribe" "mapx" "" "u1" 100 "n1" false).res
        = some .reviewChannelMissing := by decide

/-- C8 amended: transitions persist before their notifications and
notification failures leave the persisted state unchanged, with one
exception: variant B submit deletes the just-persisted pending record
when the review-surface post fails. In variant A the submit handler
persists the record whether or not the admin channel resolves. -/
theorem c8_amended :
    (∀ (store : List ReqA) (userId tribe ign mapName srv : String) (now : Nat)
        (newId : String),
      (submitA store userId tribe ign mapName srv now newId false).store
        = (submitA store userId tribe ign mapName srv now newId true).store)
    ∧ (∀ (items : List EntryB) (guildId tier ign tribe mapName mates userId : String)
        (now : Nat) (newId : String),
      2 ≤ ign.length → 2 ≤ tribe.length → 2 ≤ mapName.length →
      ((pruneB items now).1.find? (fun x => x.guildId == guildId
          && jsLowerStr x.tribe == jsLowerStr tribe
          && (x.status == .pending || x.status == .active))).isSome = false →
      (∀ x ∈ (pruneB items now).1, x.id ≠ newId) →
      (submitB items guildId tier ign tribe mapName mates userId now newId false).items
          = (pruneB items now).1
      ∧ (submitB items guildId tier ign tribe mapName mates userId now newId false).res
          = some .reviewChannelMissing) := by
  constructor
  · intro store userId tribe ign mapName srv now newId
    by_cases h1 : (getPendingRequestForUser store userId).isSome = true
    · simp [submitA, h1]
    · by_cases h2 : (getActiveApprovedForTribe store tribe none now).isSome = true
      · simp [submitA, h1, h2]
      · simp [submitA, h1, h2]
  · intro items guildId tier ign tribe mapName mates userId now newId hi htr hm hdup hfresh
    have hi2 : ¬(ign.length < 2) := by omega
    have htr2 : ¬(tribe.length < 2) := by omega
    have hm2 : ¬(mapName.length < 2) := by omega
    have hkept : ((pruneB items now).1.filter fun x => x.id != newId) = (pruneB items now).1 :=
      List.filter_eq_self.mpr fun x hx => by simpa using hfresh x hx
    constructor
    · simp [submitB, hi2, htr2, hm2, hdup, List.filter_append, hkept]
    · simp [submitB, hi2, htr2, hm2, hdup]

/-- C8 witness: a variant A submission persists its record whether or not
the admin channel resolves, and a fresh variant B submission with a failed
review post ends with the store rolled back. -/
theorem c8_witness :
    (submitA [] "u1" "Tr" "i" "m" "s" 3 "w1" false).store
        = (submitA [] "u1" "Tr" "i" "m" "s" 3 "w1" true).store
    ∧ ((submitB [] "g" "25x" "ign" "tribe" "mapx" "" "u1" 100 "w2" false).items
        = (pruneB [] 100).1
      ∧ (submitB [] "g" "25x" "ign" "tribe" "mapx" "" "u1" 100 "w2" false).res
        = some .reviewChannelMissing) := by
  obtain ⟨h1, h2⟩ := c8_amended
  exact ⟨h1 [] "u1" "Tr" "i" "m" "s" 3 "w1",
         h2 [] "g" "25x" "ign" "tribe" "mapx" "" "u1" 100 "w2"
           (by decide) (by decide) (by decide) (by decide) (by decide)⟩
